import Mathlib

/-!
# Verification of the table-converter normalization pipeline

Shallow embedding of the core normalization pipeline of the
`table-converter` repository (`src/utils.py`, `src/tables.py`,
`src/errors.py`) and proofs of the specification claims about it.

Cell values of a pandas DataFrame are modelled by `CellV`:
`na` is a missing value (`NaN`/`None`, detected by `pd.isna`),
`str` a Python string, `num` a numeric scalar (modelled over `ℚ`;
the pipeline never inspects numeric magnitudes, only parse success
and equality).  A raw grid (the DataFrame as read from the file) is
a list of rows plus per-column dtypes; a normalized table is kept
column-major (`Col` = one pandas column: label, dtype, cells).
-/

deriving instance DecidableEq for Except

/-- A single spreadsheet cell value. -/
inductive CellV where
  | na : CellV
  | str : String → CellV
  | num : ℚ → CellV
deriving DecidableEq, Repr

/-- pandas column dtypes relevant to the pipeline: `cast_fields_dtypes`
only distinguishes `object` from the rest. -/
inductive Dtype where
  | object : Dtype
  | float64 : Dtype
  | int64 : Dtype
deriving DecidableEq, Repr

/-- A raw grid: the DataFrame handed to `find_header` / `shrink_to_header`
(row-major cell values, plus the per-column dtypes pandas inferred). -/
structure Grid where
  dtypes : List Dtype
  rows : List (List CellV)
deriving DecidableEq, Repr

/-- One pandas column of a normalized table: its label (a cell value —
labels come from grid cells after header promotion), its dtype and cells. -/
structure Col where
  name : CellV
  dtype : Dtype
  cells : List CellV
deriving DecidableEq, Repr

/-- A normalized table, column-major. -/
structure Table where
  cols : List Col
deriving DecidableEq, Repr

/-- Number of rows of the table (pandas: the common column length). -/
def Table.nrows (t : Table) : ℕ := ((t.cols.head?).map (·.cells.length)).getD 0

/-- `name in data.columns` for a Python string `name`: only a string-valued
label can equal a Python string. -/
def Table.hasCol (t : Table) (name : String) : Bool :=
  t.cols.any fun c => decide (c.name = CellV.str name)

/-- The cells of the (first) column labelled `name`, `[]` if absent. -/
def Table.getCells (t : Table) (name : String) : List CellV :=
  ((t.cols.find? fun c => decide (c.name = CellV.str name)).map (·.cells)).getD []

/-- `data[name] = vals` on the column list: replaces the (first) column
with that label, or appends a new one at the end. -/
def setColGo (name : String) (vals : List CellV) : List Col → List Col
  | [] => [⟨CellV.str name, Dtype.object, vals⟩]
  | c :: cs =>
    if c.name = CellV.str name then ⟨CellV.str name, Dtype.object, vals⟩ :: cs
    else c :: setColGo name vals cs

/-- `data[name] = vals` on a table: replaces the (first) column with that
label, or appends a new one; string data gives an `object` column. -/
def Table.setCol (t : Table) (name : String) (vals : List CellV) : Table :=
  ⟨setColGo name vals t.cols⟩

/-!
## Errors (`src/errors.py`, plus the raw pandas exception)

`errors.py` defines the program's error kinds.  `valueError` is not one of
them: it models the plain Python/pandas `ValueError` that escapes
`astype(float)` (the program defines no coercion-specific error class;
the GUI boundary wraps such exceptions as the generic `InternalError`).
-/

/-- The program's error kinds (`src/errors.py`) together with the raw
Python `ValueError` that `DataFrame.astype(float)` raises. -/
inductive PyError where
  | openExcelError (path : String)
  | sheetNotFoundError (sheet : String)
  | writeExcelError (path : String)
  | headerNotFoundError
  | missingTableFieldsError (tableName : String)
      (available : Finset String) (missing : Finset String)
  | internalError (origName : String)
  | excelNotAvailableError (reason : String)
  | valueError (msg : String)
deriving DecidableEq

/-!
## Report specification model (`src/tables.py`)
-/

/-- Aggregation kinds (`Calculation` enum). -/
inductive Calculation where
  | sum : Calculation
  | avg : Calculation
  | count : Calculation
deriving DecidableEq, Repr

/-- `Value` NamedTuple: one measure of a pivot table. -/
structure Value where
  field : String
  name : String
  calculation : Calculation
  number_format : String := "0"
deriving DecidableEq, Repr

/-- `Fields` NamedTuple: the axis roles of a pivot table. -/
structure Fields where
  values : List Value
  rows : List String := []
  columns : List String := []
  filters : List String := []
deriving DecidableEq, Repr

/-- `PivotTable` NamedTuple: a named report specification. -/
structure PivotTable where
  name : String
  fields : Fields
deriving DecidableEq, Repr

/-- `is_strict_numerical(value)`: `value.calculation != Calculation.COUNT`. -/
def is_strict_numerical (value : Value) : Bool :=
  decide (value.calculation ≠ Calculation.count)

/-- `get_required_fields(table)`: the set of all field names appearing in
`table.fields.columns`, `table.fields.rows` and the `field` of each entry
of `table.fields.values`. -/
def get_required_fields (table : PivotTable) : Finset String :=
  (table.fields.columns ++ table.fields.rows
    ++ table.fields.values.map (·.field)).toFinset

/-!
## Header location (`find_header`)

`is_empty(val)` is `pd.isna(val) or not str(val).strip()`: a cell is empty
when missing or when its string form trims to the empty string (`str` of a
numeric scalar is never blank).
-/

/-- `is_empty` of `find_header`: `str(val).strip()` is falsy exactly when
every character of the string is whitespace. -/
def isEmptyCell : CellV → Bool
  | CellV.na => true
  | CellV.str s => s.data.all Char.isWhitespace
  | CellV.num _ => false

/-- Length of the leading run of non-empty cells (the inner `while` loop of
`longest_nonempty_span`: starting at some index, `j` advances while the
cell is in range and non-empty). -/
def runLen : List CellV → ℕ
  | [] => 0
  | c :: cs => if isEmptyCell c then 0 else runLen cs + 1

/-- `width(span)` of `find_header`: `0` for the empty tuple, else
`span[1] - span[0] + 1`. -/
def spanWidth : Option (ℕ × ℕ) → ℕ
  | none => 0
  | some (s, e) => e - s + 1

/-- The loop of `longest_nonempty_span`: `i` is the index of the head of
`cs` within the full row; `last` is `last_span` (`none` = the initial `()`).
For a non-empty cell at `i` the `while` loop yields `j = i + 1 + runLen cs`,
so the candidate span is `(i, i + runLen cs)`; it replaces `last` only when
strictly wider. -/
def lsGo (i : ℕ) (last : Option (ℕ × ℕ)) : List CellV → Option (ℕ × ℕ)
  | [] => last
  | c :: cs =>
    if isEmptyCell c then lsGo (i + 1) last cs
    else
      let e := i + runLen cs
      lsGo (i + 1) (if e - i + 1 > spanWidth last then some (i, e) else last) cs

/-- `longest_nonempty_span(row)`. -/
def longest_nonempty_span (row : List CellV) : Option (ℕ × ℕ) :=
  lsGo 0 none row

/-- `width(header[1:])`: `0` while no header has been kept, else the kept
span's width. -/
def headerWidth : Option (ℕ × ℕ × ℕ) → ℕ
  | none => 0
  | some (_, s, e) => e - s + 1

/-- The `if width(span) > width(header[1:]): header = (i, *span)` update of
the row loop.  A `none` span has width `0` and `0 > width(header[1:])` is
never true, so the update only ever installs a `some` span. -/
def updateHeader (i : ℕ) (header : Option (ℕ × ℕ × ℕ)) :
    Option (ℕ × ℕ) → Option (ℕ × ℕ × ℕ)
  | some (s, e) => if e - s + 1 > headerWidth header then some (i, s, e) else header
  | none => header

/-- The row loop of `find_header`, with the `i == search_nrows - 1` break. -/
def findHeaderGo (snr : ℤ) : ℕ → Option (ℕ × ℕ × ℕ) → List (List CellV) →
    Option (ℕ × ℕ × ℕ)
  | _, header, [] => header
  | i, header, row :: rest =>
    let header' := updateHeader i header (longest_nonempty_span row)
    if (i : ℤ) = snr - 1 then header'
    else findHeaderGo snr (i + 1) header' rest

/-- `HeaderILocation` NamedTuple. -/
structure HeaderILocation where
  row : ℕ
  start_col : ℕ
  end_col : ℕ
deriving DecidableEq, Repr

/-- `find_header(data, search_nrows)` over the row list of the grid
(`data.itertuples(index=False)`). -/
def find_header (data : List (List CellV)) (search_nrows : ℤ := 15) :
    Except PyError HeaderILocation :=
  match findHeaderGo search_nrows 0 none data with
  | none => Except.error PyError.headerNotFoundError
  | some (r, s, e) => Except.ok ⟨r, s, e⟩

/-- The row loop without the bound: scans every row (used to characterize
the scanned prefix). -/
def findHeaderGoNB : ℕ → Option (ℕ × ℕ × ℕ) → List (List CellV) →
    Option (ℕ × ℕ × ℕ)
  | _, header, [] => header
  | i, header, row :: rest =>
    findHeaderGoNB (i + 1) (updateHeader i header (longest_nonempty_span row)) rest

/-- `find_header` with no row bound at all. -/
def find_header_unbounded (data : List (List CellV)) :
    Except PyError HeaderILocation :=
  match findHeaderGoNB 0 none data with
  | none => Except.error PyError.headerNotFoundError
  | some (r, s, e) => Except.ok ⟨r, s, e⟩

/-- The rows the loop actually processes: all of them when
`search_nrows <= 0` (the break condition `i == search_nrows - 1` never
fires for a non-positive bound), else the first `search_nrows` rows. -/
def scannedRows (data : List (List CellV)) (snr : ℤ) : List (List CellV) :=
  if snr ≤ 0 then data else data.take snr.toNat

/-!
## Grid reshaping (`shrink_to_header`)

`out = data.iloc[header.row + 1:, header.start_col:header.end_col].copy()`
`out.columns = data.iloc[header.row, header.start_col:header.end_col].values`
`return out.reset_index(drop=True)`

`iloc` integer slices are end-exclusive and clamp at the frame bounds, so
both the promoted names and the data columns are
`start_col, ..., min(end_col, ncols) - 1`.
-/

/-- The end-exclusive, clamped positional slice `[a:b]` of a list. -/
def ilocSlice {α : Type} (l : List α) (a b : ℕ) : List α :=
  (l.drop a).take (b - a)

/-- `shrink_to_header(data, header)`. -/
def shrink_to_header (data : Grid) (header : HeaderILocation) : Table :=
  let names := ilocSlice (data.rows.getD header.row []) header.start_col header.end_col
  let body := data.rows.drop (header.row + 1)
  ⟨(List.range names.length).map fun k =>
    ⟨names.getD k CellV.na,
     data.dtypes.getD (header.start_col + k) Dtype.object,
     body.map fun r => r.getD (header.start_col + k) CellV.na⟩⟩

/-!
## Field validation (`validate_fields_exist`)
-/

/-- `validate_fields_exist(available, table)`: raises
`MissingTableFieldsError(table.name, available, missing)` when
`missing = required - available` is non-empty (the error constructor stores
`available` and `missing` as sets). -/
def validate_fields_exist (available : List String) (table : PivotTable) :
    Except PyError Unit :=
  let missing := get_required_fields table \ available.toFinset
  if missing = ∅ then Except.ok ()
  else Except.error
    (PyError.missingTableFieldsError table.name available.toFinset missing)

/-!
## Forward fill (`fill_missing_values`)

`data.ffill(axis=0)`: per column, a missing cell takes the nearest
non-missing value above it.  Only `pd.isna` cells are filled (a
whitespace-only string is not missing for `ffill`).
-/

/-- One column of `ffill`: `carry` is the last non-missing value seen. -/
def ffillGo (carry : Option CellV) : List CellV → List CellV
  | [] => []
  | v :: vs =>
    if v = CellV.na then carry.getD CellV.na :: ffillGo carry vs
    else v :: ffillGo (some v) vs

/-- `fill_missing_values(data)`. -/
def fill_missing_values (data : Table) : Table :=
  ⟨data.cols.map fun c => ⟨c.name, c.dtype, ffillGo none c.cells⟩⟩

/-!
## Computed fields (`add_computed_fields`)

The column-name literals in `src/utils.py` are mojibake (each Cyrillic
character was replaced by two `?`), but their identities are fixed by the
`?`-counts and by the names used in `src/tables.py`
(`МНН+Дозировка`, `Схема на УРНЗ`, `УНРЗ`): the guard checks the columns
`УНРЗ`, `Дозировка`, `МНН`; the combined label is
`', '.join((r.МНН, r.Дозировка))` stored as `МНН+Дозировка`; the rollup is
`out.groupby('УНРЗ')['МНН+Дозировка'].transform('; '.join)` kept only on
each group's last row (`groupby.tail(1).index`), `pd.NA` elsewhere.

Python's `str.join` requires string elements (it raises `TypeError` on a
missing/numeric cell); the embedding totalizes those cases to `na` /
`""`, and the theorems about this function restrict the label columns to
string cells, where the embedding and the code agree.
-/

def colNameMNN : String := "МНН"

def colNameDoz : String := "Дозировка"

def colNameUNRZ : String := "УНРЗ"

def colNameCombined : String := "МНН+Дозировка"

def colNameRollup : String := "Схема на УРНЗ"

/-- `', '.join((r.МНН, r.Дозировка))` (string cells only; see above). -/
def joinComma : CellV → CellV → CellV
  | CellV.str a, CellV.str b => CellV.str (a ++ ", " ++ b)
  | _, _ => CellV.na

/-- The string content of a cell (string cells only; see above). -/
def cellStr : CellV → String
  | CellV.str a => a
  | _ => ""

/-- Whether row `i` is in `out.groupby('УНРЗ').tail(1).index`: its key is
non-missing (pandas drops missing group keys) and no later row has the
same key. -/
def isLastOfGroup (keys : List CellV) (i : ℕ) : Bool :=
  decide (keys.getD i CellV.na ≠ CellV.na) &&
    (List.range keys.length).all fun j =>
      decide (j ≤ i) || decide (keys.getD j CellV.na ≠ keys.getD i CellV.na)

/-- `'; '.join` of the combined labels of the group with key `k`, in
original row order (`groupby(...).transform` hands each group its rows in
original order). -/
def groupJoin (keys combined : List CellV) (k : CellV) : String :=
  String.intercalate "; "
    (((List.range keys.length).filter fun j => decide (keys.getD j CellV.na = k)).map
      fun j => cellStr (combined.getD j CellV.na))

/-- The combined-label column
`out[['МНН', 'Дозировка']].apply(lambda r: ', '.join((r.МНН, r.Дозировка)), axis=1)`. -/
def combColumn (data : Table) : List CellV :=
  (List.range data.nrows).map fun i =>
    joinComma ((data.getCells colNameMNN).getD i CellV.na)
      ((data.getCells colNameDoz).getD i CellV.na)

/-- The grouping-key column of `out` (the frame after the combined-label
column was assigned). -/
def keysColumn (data : Table) : List CellV :=
  (data.setCol colNameCombined (combColumn data)).getCells colNameUNRZ

/-- `out.groupby('УНРЗ')['МНН+Дозировка'].transform(lambda x: '; '.join(x))`:
every row of a group receives the group's join; rows with a missing key
receive a missing value (pandas drops missing group keys). -/
def rollAllColumn (data : Table) : List CellV :=
  (List.range data.nrows).map fun i =>
    let k := (keysColumn data).getD i CellV.na
    if k = CellV.na then CellV.na
    else CellV.str (groupJoin (keysColumn data) (combColumn data) k)

/-- The rollup column after
`out.loc[~out.index.isin(out.groupby('УНРЗ').tail(1).index), ...] = pd.NA`:
kept only on each group's last row. -/
def rollColumn (data : Table) : List CellV :=
  (List.range data.nrows).map fun i =>
    if isLastOfGroup (keysColumn data) i then (rollAllColumn data).getD i CellV.na
    else CellV.na

/-- `add_computed_fields(data)`. -/
def add_computed_fields (data : Table) : Table :=
  if data.hasCol colNameUNRZ && data.hasCol colNameDoz && data.hasCol colNameMNN then
    (data.setCol colNameCombined (combColumn data)).setCol colNameRollup
      (rollColumn data)
  else data

/-!
## Type coercion (`cast_fields_dtypes`)

```
for column in data:
    if column in fields_to_cast and data.dtypes[column] == 'object':
        data[column] = data[column].astype(float)
return data
```

The assignment mutates the *input* frame; the function returns the same
(now modified) object.  `castGo` below therefore returns both the final
state of the frame's columns and the error, if any: on a raising
`astype`, columns already processed keep their new values and the rest
stay untouched.
-/

/-- The numeric-literal core of Python's `float(str)`: optional
surrounding whitespace, optional sign, decimal digits with an optional
point, optional exponent.  (`inf`/`nan` literals are outside the claims'
scope and not representable in the `ℚ` value model.) -/
def pyFloatParse (s : String) : Option ℚ :=
  let cs := ((s.data.dropWhile Char.isWhitespace).reverse.dropWhile Char.isWhitespace).reverse
  let sgn : ℚ := if cs.head? = some '-' then -1 else 1
  let cs := if cs.head? = some '-' ∨ cs.head? = some '+' then cs.tail else cs
  let intPart := cs.takeWhile Char.isDigit
  let cs1 := cs.dropWhile Char.isDigit
  let fracPart := if cs1.head? = some '.' then cs1.tail.takeWhile Char.isDigit else []
  let cs2 := if cs1.head? = some '.' then cs1.tail.dropWhile Char.isDigit else cs1
  if intPart = [] ∧ fracPart = [] then none
  else
    let digitsVal : List Char → ℕ := fun ds => ds.foldl (fun a c => a * 10 + (c.toNat - 48)) 0
    let mantissa : ℚ :=
      sgn * ((digitsVal intPart : ℚ) + (digitsVal fracPart : ℚ) / (10 : ℚ) ^ fracPart.length)
    match cs2 with
    | [] => some mantissa
    | c :: r =>
      if c = 'e' ∨ c = 'E' then
        let esgn : ℤ := if r.head? = some '-' then -1 else 1
        let r := if r.head? = some '-' ∨ r.head? = some '+' then r.tail else r
        let eDig := r.takeWhile Char.isDigit
        if eDig = [] ∨ r.dropWhile Char.isDigit ≠ [] then none
        else some (mantissa * (10 : ℚ) ^ (esgn * (digitsVal eDig : ℤ)))
      else none

/-- `astype(float)` on one object cell: missing stays missing (`NaN`),
numbers convert, strings must parse as a float literal. -/
def cellToFloat : CellV → Option CellV
  | CellV.na => some CellV.na
  | CellV.num q => some (CellV.num q)
  | CellV.str s => (pyFloatParse s).map CellV.num

/-- `astype(float)` on a whole column; `none` = `ValueError`. -/
def castCells : List CellV → Option (List CellV)
  | [] => some []
  | c :: cs =>
    match cellToFloat c with
    | none => none
    | some c' => (castCells cs).map (c' :: ·)

/-- `set(value.field for value in table.fields.values if is_strict_numerical(value))`
(as a list; only membership is ever used). -/
def fields_to_cast (table : PivotTable) : List String :=
  (table.fields.values.filter is_strict_numerical).map (·.field)

/-- One iteration of the cast loop on column `c`. -/
def castColStep (fset : List String) (c : Col) : Except PyError Col :=
  if (match c.name with
      | CellV.str f => decide (f ∈ fset)
      | _ => false) && decide (c.dtype = Dtype.object) then
    match castCells c.cells with
    | some cs => Except.ok ⟨c.name, Dtype.float64, cs⟩
    | none => Except.error (PyError.valueError "could not convert string to float")
  else Except.ok c

/-- The cast loop: final state of the frame's columns, plus the error that
aborted it, if any (on an error the raising column and its successors are
left as they were). -/
def castGo (fset : List String) : List Col → List Col × Option PyError
  | [] => ([], none)
  | c :: cs =>
    match castColStep fset c with
    | Except.error err => (c :: cs, some err)
    | Except.ok c' =>
      let r := castGo fset cs
      (c' :: r.1, r.2)

/-- `cast_fields_dtypes(data, table)` as state: the state of the input
frame after the call, and the error if one was raised. -/
def cast_fields_dtypes_run (data : Table) (table : PivotTable) :
    Table × Option PyError :=
  let r := castGo (fields_to_cast table) data.cols
  (⟨r.1⟩, r.2)

/-- `cast_fields_dtypes(data, table)` as call result: on success the
returned frame (the same, mutated, input object), else the escaping
`ValueError`. -/
def cast_fields_dtypes (data : Table) (table : PivotTable) :
    Except PyError Table :=
  match cast_fields_dtypes_run data table with
  | (t, none) => Except.ok t
  | (_, some err) => Except.error err

/-!
## State of the input after each transform

The other three transforms never assign into their argument
(`shrink_to_header` slices and `.copy()`s, `ffill` returns a fresh frame,
`add_computed_fields` works on `data.copy()`), so the caller's object is
unchanged; `cast_fields_dtypes` mutates it as modelled by
`cast_fields_dtypes_run`.
-/

/-- State of `data` after `shrink_to_header(data, header)`. -/
def shrink_input_after (data : Grid) (_ : HeaderILocation) : Grid := data

/-- State of `data` after `fill_missing_values(data)`. -/
def fill_input_after (data : Table) : Table := data

/-- State of `data` after `add_computed_fields(data)`. -/
def add_input_after (data : Table) : Table := data

/-- State of `data` after `cast_fields_dtypes(data, table)`. -/
def cast_input_after (data : Table) (table : PivotTable) : Table :=
  (cast_fields_dtypes_run data table).1

/-!
## Auxiliary definitions used by the theorem statements
-/

/-- Default column for positional access. -/
def emptyCol : Col := ⟨CellV.na, Dtype.object, []⟩

/-- A column on which the cast loop would raise: its label is a field to
cast, it is `object`-typed, and some cell does not parse as a float. -/
def colUncastable (fset : List String) (c : Col) : Bool :=
  (match c.name with
    | CellV.str f => decide (f ∈ fset)
    | _ => false)
    && decide (c.dtype = Dtype.object)
    && c.cells.any fun v => decide (cellToFloat v = none)

/-- Spec notion: cells `s..e` (inclusive) of the row are all non-empty and
`e` is in range. -/
def IsRun (row : List CellV) (s e : ℕ) : Prop :=
  s ≤ e ∧ e < row.length ∧
    ∀ k, s ≤ k → k ≤ e → isEmptyCell (row.getD k CellV.na) = false

/-- Spec notion: a *maximal* run of non-empty cells (cannot be extended on
either side). -/
def IsMaxRun (row : List CellV) (s e : ℕ) : Prop :=
  IsRun row s e ∧
    (s = 0 ∨ isEmptyCell (row.getD (s - 1) CellV.na) = true) ∧
    (e + 1 = row.length ∨ isEmptyCell (row.getD (e + 1) CellV.na) = true)

/-- The width of the longest span of scanned row `r` (0 when the row has no
non-empty cell). -/
def rowSpanWidth (rows : List (List CellV)) (r : ℕ) : ℕ :=
  spanWidth (longest_nonempty_span (rows.getD r []))

/-!
## Theorems

### C7 — `fill_missing` is idempotent
-/

lemma ffillGo_idem (carry : Option CellV) (hc : carry ≠ some CellV.na) :
    ∀ cells, ffillGo carry (ffillGo carry cells) = ffillGo carry cells := by
  intro cells
  induction cells generalizing carry with
  | nil => simp [ffillGo]
  | cons v vs ih =>
    by_cases hv : v = CellV.na
    · subst hv
      cases carry with
      | none => simp [ffillGo, ih none hc]
      | some w =>
        have hw : w ≠ CellV.na := fun h => hc (by rw [h])
        simp [ffillGo, hw, ih (some w) hc]
    · simp only [ffillGo, if_neg hv]
      rw [ih (some v) (fun h => hv (Option.some_inj.mp h))]

/-- C7: `fill_missing` is idempotent — applying `fill_missing_values` twice
gives the same table as applying it once. -/
theorem fill_missing_values_idempotent (data : Table) :
    fill_missing_values (fill_missing_values data) = fill_missing_values data := by
  unfold fill_missing_values
  cases data with
  | mk cols =>
    simp only [List.map_map, Table.mk.injEq]
    apply List.map_congr_left
    intro c _
    simp [Function.comp, ffillGo_idem none (by simp)]

/-!
### C3 — `validate_fields_exist` reports exactly the set difference
-/

/-- C3: `validate_fields_exist` raises `MissingTableFields` iff the union
of the specification's rows, columns and value fields minus the available
names is non-empty; the error carries the table's name, the available
names as a set, and as `missing` exactly that set difference. -/
theorem validate_fields_exist_exact (available : List String) (table : PivotTable) :
    (validate_fields_exist available table = Except.ok () ↔
      (table.fields.rows.toFinset ∪ table.fields.columns.toFinset
        ∪ (table.fields.values.map (·.field)).toFinset) \ available.toFinset = ∅)
    ∧ ((table.fields.rows.toFinset ∪ table.fields.columns.toFinset
        ∪ (table.fields.values.map (·.field)).toFinset) \ available.toFinset ≠ ∅ →
      validate_fields_exist available table =
        Except.error (PyError.missingTableFieldsError table.name available.toFinset
          ((table.fields.rows.toFinset ∪ table.fields.columns.toFinset
            ∪ (table.fields.values.map (·.field)).toFinset) \ available.toFinset)))
    ∧ (∀ nm av m, validate_fields_exist available table =
        Except.error (PyError.missingTableFieldsError nm av m) →
        nm = table.name ∧ av = available.toFinset ∧
          ∀ f, f ∈ m ↔ f ∈ get_required_fields table ∧ f ∉ available) := by
  have hreq : get_required_fields table =
      table.fields.rows.toFinset ∪ table.fields.columns.toFinset
        ∪ (table.fields.values.map (·.field)).toFinset := by
    unfold get_required_fields
    simp only [List.toFinset_append]
    ext f
    simp only [Finset.mem_union]
    tauto
  unfold validate_fields_exist
  rw [hreq]
  by_cases h : (table.fields.rows.toFinset ∪ table.fields.columns.toFinset
      ∪ (table.fields.values.map (·.field)).toFinset) \ available.toFinset = ∅
  · refine ⟨?_, ?_, ?_⟩
    · rw [if_pos h]
      exact ⟨fun _ => h, fun _ => rfl⟩
    · intro hne; exact absurd h hne
    · intro nm av m hcontra
      rw [if_pos h] at hcontra
      exact absurd hcontra (by simp)
  · refine ⟨?_, ?_, ?_⟩
    · rw [if_neg h]
      exact ⟨fun hcontra => absurd hcontra (by simp), fun he => absurd he h⟩
    · intro _; rw [if_neg h]
    · intro nm av m hm
      rw [if_neg h] at hm
      simp only [Except.error.injEq, PyError.missingTableFieldsError.injEq] at hm
      obtain ⟨h1, h2, h3⟩ := hm
      refine ⟨h1.symm, h2.symm, fun f => ?_⟩
      rw [← h3]
      simp [Finset.mem_sdiff, List.mem_toFinset]

/-- Witness for C3 at the spec's end-to-end scenario C: required `{A, B}`
against available `{A}` raises with `missing = {B}`. -/
theorem validate_fields_exist_exact_witness :
    validate_fields_exist ["A"]
      ⟨"rep", ⟨[⟨"B", "n", Calculation.sum, "0"⟩], ["A"], [], []⟩⟩ =
      Except.error (PyError.missingTableFieldsError "rep" {"A"} {"B"}) := by
  have h := (validate_fields_exist_exact ["A"]
    ⟨"rep", ⟨[⟨"B", "n", Calculation.sum, "0"⟩], ["A"], [], []⟩⟩).2.1 (by decide)
  rw [h]
  congr 1

/-!
### C10 — a non-positive `search_nrows` scans every row
-/

lemma findHeaderGo_eq_unbounded (snr : ℤ) :
    ∀ (rows : List (List CellV)) (i : ℕ) (header : Option (ℕ × ℕ × ℕ)),
      snr ≤ (i : ℤ) → findHeaderGo snr i header rows = findHeaderGoNB i header rows := by
  intro rows
  induction rows with
  | nil => intro i header _; rfl
  | cons row rest ih =>
    intro i header hle
    have hne : ((i : ℤ) = snr - 1) = False := by
      simp only [eq_iff_iff, iff_false]
      omega
    simp only [findHeaderGo, findHeaderGoNB, hne, if_false]
    exact ih (i + 1) _ (by omega)

/-- C10: when `search_nrows` is zero or negative, `find_header` scans every
row of the grid (the bound is only enforced by the post-row check
`i == search_nrows - 1`, which never fires), so it behaves exactly like an
unbounded search and can return a header from any row. -/
theorem find_header_nonpositive_bound_scans_all (data : List (List CellV))
    (snr : ℤ) (hsnr : snr ≤ 0) :
    find_header data snr = find_header_unbounded data := by
  unfold find_header find_header_unbounded
  rw [findHeaderGo_eq_unbounded snr data 0 none (by exact_mod_cast hsnr)]

/-- Witness for C10: with `search_nrows = -1`, a 17-row grid whose only
non-empty row is row 16 (beyond the default bound of 15) still yields that
row as the header. -/
theorem find_header_nonpositive_bound_scans_all_witness :
    find_header (List.replicate 16 [CellV.na] ++ [[CellV.str "a", CellV.str "b"]]) (-1) =
      Except.ok ⟨16, 0, 1⟩ := by
  rw [find_header_nonpositive_bound_scans_all
    (List.replicate 16 [CellV.na] ++ [[CellV.str "a", CellV.str "b"]]) (-1) (by decide)]
  decide

/-!
### C1 — `shrink_to_header` drops the last header column (code bug)

`find_header` returns an *inclusive* `end_col` (its `width` is
`span[1] - span[0] + 1`, and `tests/test_utils.py` expects e.g. `(1, 1, 3)`
for a header spanning columns 1..3), but `shrink_to_header` slices with
`iloc[..., header.start_col:header.end_col]`, whose end is *exclusive*:
the resulting table has `end_col - start_col` columns, not
`end_col - start_col + 1`, i.e. the last header column is always dropped
(and a single-column header yields an empty table).
-/

/-- C1 (the spec's end-to-end scenario A): on the grid
`[[x,'','',''],['',y,z,''],[a,'','',b]]` the header is located at row 1,
columns 1..2 (inclusive), but `shrink_to_header` then produces a table
with a single column `y` — not the `end_col - start_col + 1 = 2` columns
`[y, z]` the specification states — while the row count does equal
`3 - (1 + 1) = 1`. -/
theorem shrink_to_header_scenarioA_drops_column :
    find_header [[CellV.str "x", CellV.str "", CellV.str "", CellV.str ""],
        [CellV.str "", CellV.str "y", CellV.str "z", CellV.str ""],
        [CellV.str "a", CellV.str "", CellV.str "", CellV.str "b"]] 3 =
      Except.ok ⟨1, 1, 2⟩ ∧
    (shrink_to_header
        ⟨[Dtype.object, Dtype.object, Dtype.object, Dtype.object],
         [[CellV.str "x", CellV.str "", CellV.str "", CellV.str ""],
          [CellV.str "", CellV.str "y", CellV.str "z", CellV.str ""],
          [CellV.str "a", CellV.str "", CellV.str "", CellV.str "b"]]⟩
        ⟨1, 1, 2⟩).cols.map (fun c => c.name) = [CellV.str "y"] ∧
    (shrink_to_header
        ⟨[Dtype.object, Dtype.object, Dtype.object, Dtype.object],
         [[CellV.str "x", CellV.str "", CellV.str "", CellV.str ""],
          [CellV.str "", CellV.str "y", CellV.str "z", CellV.str ""],
          [CellV.str "a", CellV.str "", CellV.str "", CellV.str "b"]]⟩
        ⟨1, 1, 2⟩).cols.length ≠ 2 - 1 + 1 ∧
    (shrink_to_header
        ⟨[Dtype.object, Dtype.object, Dtype.object, Dtype.object],
         [[CellV.str "x", CellV.str "", CellV.str "", CellV.str ""],
          [CellV.str "", CellV.str "y", CellV.str "z", CellV.str ""],
          [CellV.str "a", CellV.str "", CellV.str "", CellV.str "b"]]⟩
        ⟨1, 1, 2⟩).cols.map (fun c => c.cells.length) = [3 - (1 + 1)] := by
  refine ⟨by decide, by decide, by decide, by decide⟩

/-!
### C4 — transform purity: `cast_fields_dtypes` mutates its input
-/

/-- Counterexample for C4: `cast_fields_dtypes` assigns
`data[column] = data[column].astype(float)` into the frame it was passed,
so a successful call leaves the caller's table different from what it was
— here the single `object` column `["1"]` of a SUM value field becomes a
`float64` column `[1.0]` in the input itself. -/
theorem cast_fields_dtypes_mutates_input :
    cast_fields_dtypes ⟨[⟨CellV.str "m", Dtype.object, [CellV.str "1"]⟩]⟩
        ⟨"r", ⟨[⟨"m", "n", Calculation.sum, "0"⟩], [], [], []⟩⟩ =
      Except.ok ⟨[⟨CellV.str "m", Dtype.float64, [CellV.num 1]⟩]⟩ ∧
    cast_input_after ⟨[⟨CellV.str "m", Dtype.object, [CellV.str "1"]⟩]⟩
        ⟨"r", ⟨[⟨"m", "n", Calculation.sum, "0"⟩], [], [], []⟩⟩ =
      ⟨[⟨CellV.str "m", Dtype.float64, [CellV.num 1]⟩]⟩ ∧
    cast_input_after ⟨[⟨CellV.str "m", Dtype.object, [CellV.str "1"]⟩]⟩
        ⟨"r", ⟨[⟨"m", "n", Calculation.sum, "0"⟩], [], [], []⟩⟩ ≠
      ⟨[⟨CellV.str "m", Dtype.object, [CellV.str "1"]⟩]⟩ := by
  refine ⟨by with_unfolding_all rfl, by with_unfolding_all rfl, ?_⟩
  have h : cast_input_after ⟨[⟨CellV.str "m", Dtype.object, [CellV.str "1"]⟩]⟩
      ⟨"r", ⟨[⟨"m", "n", Calculation.sum, "0"⟩], [], [], []⟩⟩ =
      ⟨[⟨CellV.str "m", Dtype.float64, [CellV.num 1]⟩]⟩ := by with_unfolding_all rfl
  rw [h]
  decide

/-- C4 as amended: `shrink_to_header`, `fill_missing_values` and
`add_computed_fields` leave the caller's object unchanged (they build new
frames), but `cast_fields_dtypes` mutates its input in place: after a
successful call the input table equals the returned table. -/
theorem transforms_pure_except_cast :
    (∀ (g : Grid) (h : HeaderILocation), shrink_input_after g h = g) ∧
    (∀ t : Table, fill_input_after t = t) ∧
    (∀ t : Table, add_input_after t = t) ∧
    (∀ (t : Table) (pt : PivotTable) (out : Table),
      cast_fields_dtypes t pt = Except.ok out → cast_input_after t pt = out) := by
  refine ⟨fun _ _ => rfl, fun _ => rfl, fun _ => rfl, fun t pt out h => ?_⟩
  unfold cast_fields_dtypes cast_input_after at *
  rcases hr : cast_fields_dtypes_run t pt with ⟨t', e?⟩
  rw [hr] at h
  cases e? with
  | none => simpa using h
  | some err => simp at h

/-- Witness for C4's amended statement: the mutation clause at a concrete
successful cast. -/
theorem transforms_pure_except_cast_witness :
    cast_input_after ⟨[⟨CellV.str "q", Dtype.object, [CellV.str "2"]⟩]⟩
        ⟨"w", ⟨[⟨"q", "n", Calculation.avg, "0"⟩], [], [], []⟩⟩ =
      ⟨[⟨CellV.str "q", Dtype.float64, [CellV.num 2]⟩]⟩ :=
  transforms_pure_except_cast.2.2.2
    ⟨[⟨CellV.str "q", Dtype.object, [CellV.str "2"]⟩]⟩
    ⟨"w", ⟨[⟨"q", "n", Calculation.avg, "0"⟩], [], [], []⟩⟩
    ⟨[⟨CellV.str "q", Dtype.float64, [CellV.num 2]⟩]⟩ (by with_unfolding_all rfl)

/-!
### C8 — COUNT-backed columns and `cast_fields_dtypes`
-/

lemma castGo_preserves_not_in_fset (fset : List String) (f : String)
    (hf : f ∉ fset) :
    ∀ (cols : List Col) (j : ℕ), (cols.getD j emptyCol).name = CellV.str f →
      (castGo fset cols).1.getD j emptyCol = cols.getD j emptyCol := by
  intro cols
  induction cols with
  | nil => intro j _; rfl
  | cons c cs ih =>
    intro j hname
    cases j with
    | zero =>
      simp only [List.getD_cons_zero] at hname ⊢
      have hstep : castColStep fset c = Except.ok c := by
        unfold castColStep
        have : (match c.name with
            | CellV.str g => decide (g ∈ fset)
            | _ => false) = false := by
          rw [hname]
          simpa using hf
        rw [this]
        simp
      simp only [castGo, hstep, List.getD_cons_zero]
    | succ j' =>
      simp only [List.getD_cons_succ] at hname ⊢
      unfold castGo
      cases hstep : castColStep fset c with
      | error err => simp only [List.getD_cons_succ]
      | ok c' => simpa using ih j' hname

/-- C8 as amended: a column *all* of whose backing value fields are
COUNT-aggregated is never modified by `cast_fields_dtypes` — its cells and
dtype are identical in the frame's state after the call (the returned
table on success).  (A column backing both a COUNT and a non-COUNT value
field of the same specification *is* cast; see the counterexample.) -/
theorem cast_fields_dtypes_preserves_count_columns (data : Table)
    (table : PivotTable) (f : String)
    (hcount : ∀ v ∈ table.fields.values, v.field = f →
      v.calculation = Calculation.count) :
    ∀ j, (data.cols.getD j emptyCol).name = CellV.str f →
      (cast_input_after data table).cols.getD j emptyCol =
        data.cols.getD j emptyCol := by
  intro j hname
  have hf : f ∉ fields_to_cast table := by
    unfold fields_to_cast
    intro hmem
    simp only [List.mem_map, List.mem_filter] at hmem
    obtain ⟨v, ⟨hv, hstrict⟩, hfield⟩ := hmem
    have := hcount v hv hfield
    unfold is_strict_numerical at hstrict
    simp [this] at hstrict
  exact castGo_preserves_not_in_fset (fields_to_cast table) f hf data.cols j hname

/-- Witness for C8's amended statement: a COUNT-only object column of
unparseable strings survives a successful cast of the other column
untouched. -/
theorem cast_fields_dtypes_preserves_count_columns_witness :
    (cast_input_after
        ⟨[⟨CellV.str "k", Dtype.object, [CellV.str "id1"]⟩,
          ⟨CellV.str "m", Dtype.object, [CellV.str "3"]⟩]⟩
        ⟨"r", ⟨[⟨"k", "a", Calculation.count, "0"⟩,
                ⟨"m", "b", Calculation.sum, "0"⟩], [], [], []⟩⟩).cols.getD 0 emptyCol =
      ⟨CellV.str "k", Dtype.object, [CellV.str "id1"]⟩ := by
  have h := cast_fields_dtypes_preserves_count_columns
    ⟨[⟨CellV.str "k", Dtype.object, [CellV.str "id1"]⟩,
      ⟨CellV.str "m", Dtype.object, [CellV.str "3"]⟩]⟩
    ⟨"r", ⟨[⟨"k", "a", Calculation.count, "0"⟩,
            ⟨"m", "b", Calculation.sum, "0"⟩], [], [], []⟩⟩ "k"
    (by decide) 0 (by decide)
  rw [h]
  decide

/-- Counterexample for C8 as stated: with a specification whose `values`
list a field both COUNT- and SUM-aggregated, the column backing the COUNT
value field *is* modified (cast to `float64`). -/
theorem cast_modifies_dual_count_column :
    (⟨"m", "a", Calculation.count, "0"⟩ : Value) ∈
      (⟨"r", ⟨[⟨"m", "a", Calculation.count, "0"⟩,
               ⟨"m", "b", Calculation.sum, "0"⟩], [], [], []⟩⟩ : PivotTable).fields.values ∧
    ((⟨[⟨CellV.str "m", Dtype.object, [CellV.str "1"]⟩]⟩ : Table).cols.getD 0 emptyCol).name =
      CellV.str "m" ∧
    (cast_input_after ⟨[⟨CellV.str "m", Dtype.object, [CellV.str "1"]⟩]⟩
        ⟨"r", ⟨[⟨"m", "a", Calculation.count, "0"⟩,
                ⟨"m", "b", Calculation.sum, "0"⟩], [], [], []⟩⟩).cols.getD 0 emptyCol ≠
      (⟨[⟨CellV.str "m", Dtype.object, [CellV.str "1"]⟩]⟩ : Table).cols.getD 0 emptyCol := by
  refine ⟨by decide, by decide, ?_⟩
  have h : (cast_input_after ⟨[⟨CellV.str "m", Dtype.object, [CellV.str "1"]⟩]⟩
      ⟨"r", ⟨[⟨"m", "a", Calculation.count, "0"⟩,
              ⟨"m", "b", Calculation.sum, "0"⟩], [], [], []⟩⟩).cols.getD 0 emptyCol =
      ⟨CellV.str "m", Dtype.float64, [CellV.num 1]⟩ := by with_unfolding_all rfl
  rw [h]
  decide

/-!
### C9 — an unparseable cell aborts the cast with the raw `ValueError`
-/

lemma castCells_none_of_bad {cells : List CellV} {v : CellV}
    (hv : v ∈ cells) (hbad : cellToFloat v = none) : castCells cells = none := by
  induction cells with
  | nil => cases hv
  | cons c cs ih =>
    rcases List.mem_cons.mp hv with h | h
    · subst h
      unfold castCells
      rw [hbad]
    · unfold castCells
      cases hc : cellToFloat c with
      | none => rfl
      | some c' => rw [ih h]; rfl

lemma castGo_error_shape (fset : List String) :
    ∀ cols : List Col, (castGo fset cols).2 = none ∨
      (castGo fset cols).2 = some (PyError.valueError "could not convert string to float") := by
  intro cols
  induction cols with
  | nil => left; rfl
  | cons c cs ih =>
    unfold castGo
    cases hstep : castColStep fset c with
    | error err =>
      right
      unfold castColStep at hstep
      by_cases hcond : ((match c.name with
          | CellV.str f => decide (f ∈ fset)
          | _ => false) && decide (c.dtype = Dtype.object)) = true
      · rw [if_pos hcond] at hstep
        cases hcast : castCells c.cells with
        | some cs' => rw [hcast] at hstep; simp at hstep
        | none => rw [hcast] at hstep; simp at hstep; simp [hstep]
      · rw [if_neg hcond] at hstep; simp at hstep
    | ok c' => simpa using ih

lemma castGo_fails_of_uncastable (fset : List String) :
    ∀ cols : List Col, (∃ c ∈ cols, colUncastable fset c = true) →
      (castGo fset cols).2 ≠ none := by
  intro cols
  induction cols with
  | nil => rintro ⟨c, hc, _⟩; cases hc
  | cons c cs ih =>
    rintro ⟨c0, hc0, hbad⟩
    unfold castGo
    cases hstep : castColStep fset c with
    | error err => simp
    | ok c' =>
      rcases List.mem_cons.mp hc0 with h | h
      · subst h
        exfalso
        unfold colUncastable at hbad
        simp only [Bool.and_eq_true, List.any_eq_true, decide_eq_true_eq] at hbad
        obtain ⟨⟨hname, hdtype⟩, v, hv, hvbad⟩ := hbad
        unfold castColStep at hstep
        rw [if_pos (by rw [hname, hdtype]; rfl)] at hstep
        rw [castCells_none_of_bad hv hvbad] at hstep
        cases hstep
      · simpa using ih ⟨c0, h, hbad⟩

/-- C9 as amended: if some column of the table backs a non-COUNT value
field, is `object`-typed (the only pandas representation in which an
unparsed value can occur) and holds a cell that does not parse as a
float, then `cast_fields_dtypes` aborts with the raw Python `ValueError`
of `astype(float)` — the program defines no `TypeCoercionFailed` error
kind, so no such specific kind can be raised. -/
theorem cast_fields_dtypes_aborts_on_unparseable (data : Table)
    (table : PivotTable)
    (h : ∃ c ∈ data.cols, colUncastable (fields_to_cast table) c = true) :
    cast_fields_dtypes data table =
      Except.error (PyError.valueError "could not convert string to float") := by
  have hne := castGo_fails_of_uncastable (fields_to_cast table) data.cols h
  rcases castGo_error_shape (fields_to_cast table) data.cols with he | he
  · exact absurd he hne
  · unfold cast_fields_dtypes cast_fields_dtypes_run
    rcases hgo : castGo (fields_to_cast table) data.cols with ⟨c2, e2⟩
    rw [hgo] at he
    simp only at he
    subst he
    rfl

/-- Witness for C9's amended statement at a concrete unparseable cell. -/
theorem cast_fields_dtypes_aborts_on_unparseable_witness :
    cast_fields_dtypes ⟨[⟨CellV.str "m", Dtype.object, [CellV.str "1", CellV.str "oops"]⟩]⟩
        ⟨"r", ⟨[⟨"m", "n", Calculation.sum, "0"⟩], [], [], []⟩⟩ =
      Except.error (PyError.valueError "could not convert string to float") :=
  cast_fields_dtypes_aborts_on_unparseable
    ⟨[⟨CellV.str "m", Dtype.object, [CellV.str "1", CellV.str "oops"]⟩]⟩
    ⟨"r", ⟨[⟨"m", "n", Calculation.sum, "0"⟩], [], [], []⟩⟩ (by decide)

/-- Counterexample for C9 as stated: at a concrete unparseable cell the
raised error is the plain `ValueError` escaping `astype(float)` — the only
error the call can raise — not a program-specific coercion error kind:
`src/errors.py` defines no `TypeCoercionFailed` class (the embedding's
`PyError` enumerates every error kind the program defines). -/
theorem cast_error_is_generic_valueError :
    cast_fields_dtypes ⟨[⟨CellV.str "f", Dtype.object, [CellV.str "abc"]⟩]⟩
        ⟨"s", ⟨[⟨"f", "n", Calculation.avg, "0"⟩], [], [], []⟩⟩ =
      Except.error (PyError.valueError "could not convert string to float") ∧
    ∀ err, cast_fields_dtypes ⟨[⟨CellV.str "f", Dtype.object, [CellV.str "abc"]⟩]⟩
        ⟨"s", ⟨[⟨"f", "n", Calculation.avg, "0"⟩], [], [], []⟩⟩ = Except.error err →
      err = PyError.valueError "could not convert string to float" := by
  constructor
  · decide
  · intro err h
    have h0 : cast_fields_dtypes ⟨[⟨CellV.str "f", Dtype.object, [CellV.str "abc"]⟩]⟩
        ⟨"s", ⟨[⟨"f", "n", Calculation.avg, "0"⟩], [], [], []⟩⟩ =
        Except.error (PyError.valueError "could not convert string to float") := by decide
    rw [h0] at h
    exact (Except.error.inj h).symm

/-!
### Infrastructure for C5/C6 — runs and spans of `find_header`

`runLen (row.drop k)` is the length of the contiguous block of non-empty
cells starting at position `k` of the row (`0` when cell `k` is empty or
out of range); out-of-range `getD` accesses yield `na`, which is empty.
-/

lemma getD_drop_na (l : List CellV) :
    ∀ n m : ℕ, (l.drop n).getD m CellV.na = l.getD (n + m) CellV.na := by
  induction l with
  | nil => intro n m; simp
  | cons c cs ih =>
    intro n m
    cases n with
    | zero => simp
    | succ n' =>
      have : n' + 1 + m = (n' + m) + 1 := by omega
      simp only [List.drop_succ_cons, this, List.getD_cons_succ]
      exact ih n' m

lemma runLen_eq_zero_iff (cs : List CellV) :
    runLen cs = 0 ↔ isEmptyCell (cs.getD 0 CellV.na) = true := by
  cases cs with
  | nil => simp [runLen, isEmptyCell]
  | cons c cs' =>
    by_cases h : isEmptyCell c
    · simp [runLen, h]
    · simp [runLen, h]

lemma isEmptyCell_of_lt_runLen (cs : List CellV) :
    ∀ d, d < runLen cs → isEmptyCell (cs.getD d CellV.na) = false := by
  induction cs with
  | nil => intro d hd; simp [runLen] at hd
  | cons c cs' ih =>
    intro d hd
    by_cases h : isEmptyCell c
    · simp [runLen, h] at hd
    · cases d with
      | zero => simpa using h
      | succ d' =>
        simp only [runLen, if_neg h] at hd
        simpa using ih d' (by omega)

lemma isEmptyCell_at_runLen (cs : List CellV) :
    isEmptyCell (cs.getD (runLen cs) CellV.na) = true := by
  induction cs with
  | nil => rfl
  | cons c cs' ih =>
    by_cases h : isEmptyCell c
    · simp [runLen, h]
    · simpa [runLen, h] using ih

lemma le_runLen_of_all_nonempty (cs : List CellV) (L : ℕ)
    (h : ∀ d, d < L → isEmptyCell (cs.getD d CellV.na) = false) :
    L ≤ runLen cs := by
  by_contra hlt
  have h1 : isEmptyCell (cs.getD (runLen cs) CellV.na) = false :=
    h (runLen cs) (by omega)
  have h2 := isEmptyCell_at_runLen cs
  rw [h1] at h2
  cases h2

lemma nonempty_getD_lt_length (row : List CellV) (k : ℕ)
    (h : isEmptyCell (row.getD k CellV.na) = false) : k < row.length := by
  by_contra hk
  rw [List.getD_eq_default _ _ (by omega)] at h
  cases h

lemma runLen_drop_cons (row : List CellV) (k : ℕ) (hk : k < row.length) :
    runLen (row.drop k) =
      if isEmptyCell (row.getD k CellV.na) then 0
      else runLen (row.drop (k + 1)) + 1 := by
  rw [List.drop_eq_getElem_cons hk]
  have h1 : row[k] = row.getD k CellV.na := (List.getD_eq_getElem row CellV.na hk).symm
  rw [runLen, h1]

lemma lsGo_invariant (row : List CellV) :
    ∀ (cs : List CellV) (i : ℕ) (last : Option (ℕ × ℕ)),
      cs = row.drop i →
      (last = none → ∀ k, k < i → runLen (row.drop k) = 0) →
      (∀ s e, last = some (s, e) →
        isEmptyCell (row.getD s CellV.na) = false ∧
        e = s + runLen (row.drop (s + 1)) ∧
        (∀ k, k < i → runLen (row.drop k) ≤ e - s + 1) ∧
        (∀ k, k < s → runLen (row.drop k) < e - s + 1)) →
      ((lsGo i last cs = none → ∀ k, runLen (row.drop k) = 0) ∧
       (∀ s e, lsGo i last cs = some (s, e) →
         isEmptyCell (row.getD s CellV.na) = false ∧
         e = s + runLen (row.drop (s + 1)) ∧
         (∀ k, runLen (row.drop k) ≤ e - s + 1) ∧
         (∀ k, k < s → runLen (row.drop k) < e - s + 1))) := by
  intro cs
  induction cs with
  | nil =>
    intro i last hdrop hnone hsome
    have hlen : row.length ≤ i := by
      by_contra hc
      rw [List.drop_eq_getElem_cons (by omega)] at hdrop
      cases hdrop
    have hout : ∀ k, i ≤ k → runLen (row.drop k) = 0 := by
      intro k hk
      rw [List.drop_eq_nil_of_le (by omega)]
      rfl
    constructor
    · intro hres k
      rcases Nat.lt_or_ge k i with hk | hk
      · exact hnone hres k hk
      · exact hout k hk
    · intro s e hres
      obtain ⟨h1, h2, h3, h4⟩ := hsome s e hres
      refine ⟨h1, h2, fun k => ?_, h4⟩
      rcases Nat.lt_or_ge k i with hk | hk
      · exact h3 k hk
      · rw [hout k hk]; omega
  | cons c cs' ih =>
    intro i last hdrop hnone hsome
    have hlen : i < row.length := by
      by_contra hc
      rw [List.drop_eq_nil_of_le (by omega)] at hdrop
      cases hdrop
    have hc0 : row.getD i CellV.na = c := by
      have h := getD_drop_na row i 0
      rw [← hdrop] at h
      simpa using h.symm
    have hcs' : cs' = row.drop (i + 1) := by
      have h : (row.drop i).drop 1 = row.drop (i + 1) := List.drop_drop 1 i row
      rw [← hdrop] at h
      simpa using h
    by_cases hce : isEmptyCell c
    · have hz : runLen (row.drop i) = 0 := by
        rw [← hdrop, runLen, if_pos hce]
      simp only [lsGo, if_pos hce]
      apply ih (i + 1) last hcs'
      · intro hl k hk
        rcases Nat.lt_or_ge k i with hki | hki
        · exact hnone hl k hki
        · have : k = i := by omega
          rw [this, hz]
      · intro s e hl
        obtain ⟨h1, h2, h3, h4⟩ := hsome s e hl
        refine ⟨h1, h2, fun k hk => ?_, h4⟩
        rcases Nat.lt_or_ge k i with hki | hki
        · exact h3 k hki
        · have : k = i := by omega
          rw [this, hz]; omega
    · have hwi : runLen (row.drop i) = runLen cs' + 1 := by
        rw [← hdrop, runLen, if_neg hce]
      simp only [lsGo, if_neg hce]
      have harith : i + runLen cs' - i + 1 = runLen cs' + 1 := by omega
      by_cases hcond : i + runLen cs' - i + 1 > spanWidth last
      · rw [if_pos hcond]
        apply ih (i + 1) (some (i, i + runLen cs')) hcs'
        · intro hl; cases hl
        · intro s e hl
          cases hl
          refine ⟨by rw [hc0]; exact Bool.eq_false_iff.mpr hce, by rw [← hcs'], ?_, ?_⟩
          · intro k hk
            rcases Nat.lt_or_ge k i with hki | hki
            · rcases hl0 : last with _ | ⟨s0, e0⟩
              · rw [hnone hl0 k hki]; omega
              · obtain ⟨_, _, h3, _⟩ := hsome s0 e0 hl0
                have := h3 k hki
                have hlw : spanWidth last = e0 - s0 + 1 := by rw [hl0]; rfl
                omega
            · have : k = i := by omega
              rw [this, hwi]; omega
          · intro k hk
            rcases hl0 : last with _ | ⟨s0, e0⟩
            · rw [hnone hl0 k hk]; omega
            · obtain ⟨_, _, h3, _⟩ := hsome s0 e0 hl0
              have := h3 k (by omega)
              have hlw : spanWidth last = e0 - s0 + 1 := by rw [hl0]; rfl
              omega
      · rw [if_neg hcond]
        rcases hl0 : last with _ | ⟨s0, e0⟩
        · exfalso
          rw [hl0] at hcond
          simp only [spanWidth] at hcond
          omega
        · obtain ⟨h1, h2, h3, h4⟩ := hsome s0 e0 hl0
          rw [← hl0]
          apply ih (i + 1) last hcs'
          · intro hl; rw [hl0] at hl; cases hl
          · intro s e hl
            rw [hl0] at hl
            cases hl
            refine ⟨h1, h2, fun k hk => ?_, h4⟩
            rcases Nat.lt_or_ge k i with hki | hki
            · exact h3 k hki
            · have hki2 : k = i := by omega
              have hlw : spanWidth last = e0 - s0 + 1 := by rw [hl0]; rfl
              rw [hki2, hwi]
              omega

lemma longest_nonempty_span_spec (row : List CellV) :
    (longest_nonempty_span row = none → ∀ k, runLen (row.drop k) = 0) ∧
    (∀ s e, longest_nonempty_span row = some (s, e) →
      isEmptyCell (row.getD s CellV.na) = false ∧
      e = s + runLen (row.drop (s + 1)) ∧
      (∀ k, runLen (row.drop k) ≤ e - s + 1) ∧
      (∀ k, k < s → runLen (row.drop k) < e - s + 1)) :=
  lsGo_invariant row row 0 none (by simp)
    (fun _ k hk => absurd hk (by omega))
    (fun s e h => by cases h)

/-- The span returned by `longest_nonempty_span` is the first-occurring
longest maximal run of non-empty cells of the row. -/
lemma longest_span_props (row : List CellV) (s e : ℕ)
    (h : longest_nonempty_span row = some (s, e)) :
    IsMaxRun row s e ∧
    (∀ s' e', IsRun row s' e' → e' - s' + 1 ≤ e - s + 1) ∧
    (∀ s' e', IsMaxRun row s' e' → e' - s' + 1 = e - s + 1 → s ≤ s') := by
  obtain ⟨hNE, hE, hALL, hLT⟩ := (longest_nonempty_span_spec row).2 s e h
  have hslen : s < row.length := nonempty_getD_lt_length row s hNE
  have hrs : runLen (row.drop s) = runLen (row.drop (s + 1)) + 1 := by
    rw [runLen_drop_cons row s hslen, hNE]
    simp
  have hrun : ∀ k, s ≤ k → k ≤ e → isEmptyCell (row.getD k CellV.na) = false := by
    intro k hk1 hk2
    rcases Nat.eq_or_lt_of_le hk1 with rfl | hlt
    · exact hNE
    · have hd : k - (s + 1) < runLen (row.drop (s + 1)) := by omega
      have hcell := isEmptyCell_of_lt_runLen (row.drop (s + 1)) _ hd
      rw [getD_drop_na] at hcell
      have heq : s + 1 + (k - (s + 1)) = k := by omega
      rw [heq] at hcell
      exact hcell
  have hrunEnd : isEmptyCell (row.getD (e + 1) CellV.na) = true := by
    have hcell := isEmptyCell_at_runLen (row.drop (s + 1))
    rw [getD_drop_na] at hcell
    have heq : s + 1 + runLen (row.drop (s + 1)) = e + 1 := by omega
    rw [heq] at hcell
    exact hcell
  have helen : e < row.length := nonempty_getD_lt_length row e (hrun e (by omega) le_rfl)
  have hIsRun : IsRun row s e := ⟨by omega, helen, hrun⟩
  have hMax : IsMaxRun row s e := by
    refine ⟨hIsRun, ?_, Or.inr hrunEnd⟩
    rcases Nat.eq_zero_or_pos s with rfl | hs0
    · exact Or.inl rfl
    · right
      cases hb : isEmptyCell (row.getD (s - 1) CellV.na) with
      | true => rfl
      | false =>
        exfalso
        have h1 : runLen (row.drop (s - 1)) = runLen (row.drop s) + 1 := by
          rw [runLen_drop_cons row (s - 1) (by omega)]
          have hsucc : s - 1 + 1 = s := by omega
          rw [hb, hsucc]
          simp
        have h2 := hLT (s - 1) (by omega)
        omega
  refine ⟨hMax, ?_, ?_⟩
  · intro s' e' hR
    obtain ⟨hle', hlen', hne'⟩ := hR
    have hL : e' - s' + 1 ≤ runLen (row.drop s') := by
      apply le_runLen_of_all_nonempty
      intro d hd
      rw [getD_drop_na]
      exact hne' (s' + d) (by omega) (by omega)
    have := hALL s'
    omega
  · intro s' e' hMR heq
    by_contra hss
    obtain ⟨⟨hle', hlen', hne'⟩, _, _⟩ := hMR
    have hL : e' - s' + 1 ≤ runLen (row.drop s') := by
      apply le_runLen_of_all_nonempty
      intro d hd
      rw [getD_drop_na]
      exact hne' (s' + d) (by omega) (by omega)
    have := hLT s' (by omega)
    omega

lemma getD_drop_rows (S : List (List CellV)) :
    ∀ n m : ℕ, (S.drop n).getD m [] = S.getD (n + m) [] := by
  induction S with
  | nil => intro n m; simp
  | cons c cs ih =>
    intro n m
    cases n with
    | zero => simp
    | succ n' =>
      have : n' + 1 + m = (n' + m) + 1 := by omega
      simp only [List.drop_succ_cons, this, List.getD_cons_succ]
      exact ih n' m

lemma goNB_invariant (S : List (List CellV)) :
    ∀ (rs : List (List CellV)) (i : ℕ) (header : Option (ℕ × ℕ × ℕ)),
      rs = S.drop i →
      (header = none → ∀ r, r < i → rowSpanWidth S r = 0) →
      (∀ r s e, header = some (r, s, e) →
        longest_nonempty_span (S.getD r []) = some (s, e) ∧
        (∀ r', r' < i → rowSpanWidth S r' ≤ e - s + 1) ∧
        (∀ r', r' < r → rowSpanWidth S r' < e - s + 1)) →
      ((findHeaderGoNB i header rs = none → ∀ r, rowSpanWidth S r = 0) ∧
       (∀ r s e, findHeaderGoNB i header rs = some (r, s, e) →
         longest_nonempty_span (S.getD r []) = some (s, e) ∧
         (∀ r', rowSpanWidth S r' ≤ e - s + 1) ∧
         (∀ r', r' < r → rowSpanWidth S r' < e - s + 1))) := by
  intro rs
  induction rs with
  | nil =>
    intro i header hdrop hnone hsome
    have hlen : S.length ≤ i := by
      by_contra hc
      rw [List.drop_eq_getElem_cons (by omega)] at hdrop
      cases hdrop
    have hout : ∀ r, i ≤ r → rowSpanWidth S r = 0 := by
      intro r hr
      unfold rowSpanWidth
      rw [List.getD_eq_default _ _ (by omega)]
      rfl
    constructor
    · intro hres r
      rcases Nat.lt_or_ge r i with hr | hr
      · exact hnone hres r hr
      · exact hout r hr
    · intro r s e hres
      obtain ⟨h1, h2, h3⟩ := hsome r s e hres
      refine ⟨h1, fun r' => ?_, h3⟩
      rcases Nat.lt_or_ge r' i with hr | hr
      · exact h2 r' hr
      · rw [hout r' hr]; omega
  | cons row rest ih =>
    intro i header hdrop hnone hsome
    have hlen : i < S.length := by
      by_contra hc
      rw [List.drop_eq_nil_of_le (by omega)] at hdrop
      cases hdrop
    have hrow : S.getD i [] = row := by
      have h := getD_drop_rows S i 0
      rw [← hdrop] at h
      simpa using h.symm
    have hrest : rest = S.drop (i + 1) := by
      have h : (S.drop i).drop 1 = S.drop (i + 1) := List.drop_drop 1 i S
      rw [← hdrop] at h
      simpa using h
    have hwidth_i : rowSpanWidth S i = spanWidth (longest_nonempty_span row) := by
      unfold rowSpanWidth
      rw [hrow]
    simp only [findHeaderGoNB]
    rcases hspan : longest_nonempty_span row with _ | ⟨s, e⟩
    · -- this row has no non-empty cell: header unchanged
      have hzi : rowSpanWidth S i = 0 := by rw [hwidth_i, hspan]; rfl
      simp only [updateHeader]
      apply ih (i + 1) header hrest
      · intro hl r hr
        rcases Nat.lt_or_ge r i with hri | hri
        · exact hnone hl r hri
        · have : r = i := by omega
          rw [this, hzi]
      · intro r s e hl
        obtain ⟨h1, h2, h3⟩ := hsome r s e hl
        refine ⟨h1, fun r' hr' => ?_, h3⟩
        rcases Nat.lt_or_ge r' i with hri | hri
        · exact h2 r' hri
        · have : r' = i := by omega
          rw [this, hzi]; omega
    · have hwi : rowSpanWidth S i = e - s + 1 := by rw [hwidth_i, hspan]; rfl
      simp only [updateHeader]
      by_cases hcond : e - s + 1 > headerWidth header
      · rw [if_pos hcond]
        apply ih (i + 1) (some (i, s, e)) hrest
        · intro hl; cases hl
        · intro r s' e' hl
          cases hl
          refine ⟨by rw [hrow]; exact hspan, ?_, ?_⟩
          · intro r' hr'
            rcases Nat.lt_or_ge r' i with hri | hri
            · rcases hl0 : header with _ | ⟨⟨r0, s0, e0⟩⟩
              · rw [hnone hl0 r' hri]; omega
              · obtain ⟨_, h2, _⟩ := hsome r0 s0 e0 hl0
                have := h2 r' hri
                have hhw : headerWidth header = e0 - s0 + 1 := by rw [hl0]; rfl
                omega
            · have : r' = i := by omega
              rw [this, hwi]
          · intro r' hr'
            rcases hl0 : header with _ | ⟨⟨r0, s0, e0⟩⟩
            · rw [hnone hl0 r' hr']; omega
            · obtain ⟨_, h2, _⟩ := hsome r0 s0 e0 hl0
              have := h2 r' (by omega)
              have hhw : headerWidth header = e0 - s0 + 1 := by rw [hl0]; rfl
              omega
      · rw [if_neg hcond]
        rcases hl0 : header with _ | ⟨⟨r0, s0, e0⟩⟩
        · exfalso
          rw [hl0] at hcond
          simp only [headerWidth] at hcond
          omega
        · obtain ⟨h1, h2, h3⟩ := hsome r0 s0 e0 hl0
          rw [← hl0]
          apply ih (i + 1) header hrest
          · intro hl; rw [hl0] at hl; cases hl
          · intro r s' e' hl
            rw [hl0] at hl
            cases hl
            refine ⟨h1, fun r' hr' => ?_, h3⟩
            rcases Nat.lt_or_ge r' i with hri | hri
            · exact h2 r' hri
            · have hr2 : r' = i := by omega
              have hhw : headerWidth header = e0 - s0 + 1 := by rw [hl0]; rfl
              rw [hr2, hwi]
              rw [hl0] at hcond
              simp only [headerWidth] at hcond
              omega

lemma findHeaderGoNB_spec (S : List (List CellV)) :
    (findHeaderGoNB 0 none S = none → ∀ r, rowSpanWidth S r = 0) ∧
    (∀ r s e, findHeaderGoNB 0 none S = some (r, s, e) →
      longest_nonempty_span (S.getD r []) = some (s, e) ∧
      (∀ r', rowSpanWidth S r' ≤ e - s + 1) ∧
      (∀ r', r' < r → rowSpanWidth S r' < e - s + 1)) :=
  goNB_invariant S S 0 none (by simp)
    (fun _ r hr => absurd hr (by omega))
    (fun r s e h => by cases h)

lemma findHeaderGo_eq_goNB_take (snr : ℤ) :
    ∀ (rows : List (List CellV)) (i : ℕ) (header : Option (ℕ × ℕ × ℕ)),
      (i : ℤ) < snr →
      findHeaderGo snr i header rows =
        findHeaderGoNB i header (rows.take (snr - i).toNat) := by
  intro rows
  induction rows with
  | nil => intro i header _; simp [findHeaderGo, findHeaderGoNB]
  | cons row rest ih =>
    intro i header hlt
    by_cases hbreak : (i : ℤ) = snr - 1
    · have h1 : (snr - i).toNat = 1 := by omega
      rw [h1]
      simp only [findHeaderGo, findHeaderGoNB, List.take_succ_cons, List.take_zero,
        if_pos hbreak]
    · have h2 : (snr - i).toNat = (snr - (i + 1)).toNat + 1 := by omega
      rw [h2]
      simp only [findHeaderGo, findHeaderGoNB, List.take_succ_cons, if_neg hbreak]
      exact ih (i + 1) _ (by omega)

lemma find_header_eq_scanned (data : List (List CellV)) (snr : ℤ) :
    find_header data snr =
      match findHeaderGoNB 0 none (scannedRows data snr) with
      | none => Except.error PyError.headerNotFoundError
      | some (r, s, e) => Except.ok ⟨r, s, e⟩ := by
  unfold find_header scannedRows
  by_cases h : snr ≤ 0
  · rw [if_pos h, findHeaderGo_eq_unbounded snr data 0 none (by exact_mod_cast h)]
  · rw [if_neg h, findHeaderGo_eq_goNB_take snr data 0 none (by omega)]
    norm_num

lemma longest_span_empty_nil : longest_nonempty_span ([] : List CellV) = none := rfl

lemma row_all_empty_iff (row : List CellV) :
    row.all isEmptyCell = true ↔ ∀ k, runLen (row.drop k) = 0 := by
  constructor
  · intro hall k
    rcases Nat.lt_or_ge k row.length with hk | hk
    · rw [runLen_drop_cons row k hk]
      have : isEmptyCell (row.getD k CellV.na) = true := by
        rw [List.getD_eq_getElem row CellV.na hk]
        exact List.all_eq_true.mp hall _ (List.getElem_mem hk)
      rw [this]
      rfl
    · rw [List.drop_eq_nil_of_le (by omega)]
      rfl
  · intro h
    apply List.all_eq_true.mpr
    intro x hx
    obtain ⟨k, hk, rfl⟩ := List.mem_iff_getElem.mp hx
    have := h k
    rw [runLen_drop_cons row k hk] at this
    rw [← List.getD_eq_getElem row CellV.na hk]
    by_contra hb
    rw [Bool.not_eq_true] at hb
    rw [hb] at this
    simp at this

lemma longest_span_none_iff (row : List CellV) :
    longest_nonempty_span row = none ↔ row.all isEmptyCell = true := by
  rw [row_all_empty_iff]
  constructor
  · exact (longest_nonempty_span_spec row).1
  · intro h
    rcases hs : longest_nonempty_span row with _ | ⟨s, e⟩
    · rfl
    · exfalso
      obtain ⟨hNE, _, _, _⟩ := (longest_nonempty_span_spec row).2 s e hs
      have := h s
      have hlen : s < row.length := nonempty_getD_lt_length row s hNE
      rw [runLen_drop_cons row s hlen, hNE] at this
      simp at this

/-!
### C6 — `HeaderNotFound` iff every scanned row is fully empty
-/

/-- C6: `find_header` raises `HeaderNotFound` if and only if every scanned
row is fully empty (a cell being empty when missing or whitespace-only);
and whenever it does return a header, that header's row has a non-empty
cell at the span's start — the initial no-header state compares as width
`0`, so a width-0 span never becomes the result. -/
theorem find_header_error_iff_all_scanned_empty (data : List (List CellV))
    (snr : ℤ) :
    (find_header data snr = Except.error PyError.headerNotFoundError ↔
      ∀ row ∈ scannedRows data snr, row.all isEmptyCell = true) ∧
    (∀ r s e, find_header data snr = Except.ok ⟨r, s, e⟩ →
      isEmptyCell (((scannedRows data snr).getD r []).getD s CellV.na) = false) := by
  have hmain := find_header_eq_scanned data snr
  constructor
  · constructor
    · intro herr row hrow
      rw [hmain] at herr
      rcases hnb : findHeaderGoNB 0 none (scannedRows data snr) with _ | ⟨⟨r, s, e⟩⟩
      · have hz := (findHeaderGoNB_spec (scannedRows data snr)).1 hnb
        obtain ⟨k, hk, rfl⟩ := List.mem_iff_getElem.mp hrow
        apply (longest_span_none_iff _).mp
        rcases hsp : longest_nonempty_span (scannedRows data snr)[k] with _ | ⟨s, e⟩
        · rfl
        · exfalso
          have hw := hz k
          unfold rowSpanWidth at hw
          rw [List.getD_eq_getElem _ [] hk, hsp] at hw
          simp [spanWidth] at hw
      · rw [hnb] at herr
        cases herr
    · intro hall
      rw [hmain]
      rcases hnb : findHeaderGoNB 0 none (scannedRows data snr) with _ | ⟨⟨r, s, e⟩⟩
      · rfl
      · exfalso
        obtain ⟨hsp, _, _⟩ := (findHeaderGoNB_spec (scannedRows data snr)).2 r s e hnb
        have hrlen : r < (scannedRows data snr).length := by
          by_contra hc
          rw [List.getD_eq_default _ _ (by omega)] at hsp
          rw [longest_span_empty_nil] at hsp
          cases hsp
        have hrow := hall ((scannedRows data snr).getD r [])
          (by rw [List.getD_eq_getElem _ [] hrlen]; exact List.getElem_mem hrlen)
        rw [(longest_span_none_iff _).mpr hrow] at hsp
        cases hsp
  · intro r s e hok
    rw [hmain] at hok
    rcases hnb : findHeaderGoNB 0 none (scannedRows data snr) with _ | ⟨⟨r', s', e'⟩⟩
    · rw [hnb] at hok; cases hok
    · rw [hnb] at hok
      have : r' = r ∧ s' = s ∧ e' = e := by
        refine ⟨?_, ?_, ?_⟩ <;> cases hok <;> rfl
      obtain ⟨rfl, rfl, rfl⟩ := this
      obtain ⟨hsp, _, _⟩ := (findHeaderGoNB_spec (scannedRows data snr)).2 r' s' e' hnb
      obtain ⟨hNE, _, _, _⟩ := (longest_nonempty_span_spec _).2 s' e' hsp
      exact hNE

/-- Witness for C6 at concrete grids: a grid of missing and whitespace-only
cells raises `HeaderNotFound`; a grid with one non-empty cell does not. -/
theorem find_header_error_iff_all_scanned_empty_witness :
    find_header [[CellV.na, CellV.str " "], [CellV.str "", CellV.na]] 15 =
      Except.error PyError.headerNotFoundError ∧
    isEmptyCell (((scannedRows [[CellV.na, CellV.str "x"]] 15).getD 0 []).getD 1 CellV.na)
      = false := by
  constructor
  · exact ((find_header_error_iff_all_scanned_empty
      [[CellV.na, CellV.str " "], [CellV.str "", CellV.na]] 15).1).mpr (by decide)
  · exact (find_header_error_iff_all_scanned_empty [[CellV.na, CellV.str "x"]] 15).2
      0 1 1 (by decide)

/-!
### C5 — the returned header row and span
-/

/-- C5: whenever `find_header` returns a header `(r, s, e)`, the row `r` is
within the scanned prefix and is the earliest row attaining the maximum
span width — its longest span is strictly wider than every earlier scanned
row's, and no scanned row (in particular no later row with an equal-width
span) exceeds it; within the row, the span `(s, e)` is a maximal run of
non-empty cells, no run of the row is wider, and among maximal runs of
equal (maximal) width it is the first in scan order. -/
theorem find_header_widest_earliest (data : List (List CellV)) (snr : ℤ)
    (r s e : ℕ) (h : find_header data snr = Except.ok ⟨r, s, e⟩) :
    r < (scannedRows data snr).length ∧
    longest_nonempty_span ((scannedRows data snr).getD r []) = some (s, e) ∧
    (∀ r', r' < r → rowSpanWidth (scannedRows data snr) r' < e - s + 1) ∧
    (∀ r', rowSpanWidth (scannedRows data snr) r' ≤ e - s + 1) ∧
    IsMaxRun ((scannedRows data snr).getD r []) s e ∧
    (∀ s' e', IsRun ((scannedRows data snr).getD r []) s' e' →
      e' - s' + 1 ≤ e - s + 1) ∧
    (∀ s' e', IsMaxRun ((scannedRows data snr).getD r []) s' e' →
      e' - s' + 1 = e - s + 1 → s ≤ s') := by
  rw [find_header_eq_scanned data snr] at h
  rcases hnb : findHeaderGoNB 0 none (scannedRows data snr) with _ | ⟨⟨r', s', e'⟩⟩
  · rw [hnb] at h; cases h
  · rw [hnb] at h
    have heq : r' = r ∧ s' = s ∧ e' = e := by
      refine ⟨?_, ?_, ?_⟩ <;> cases h <;> rfl
    obtain ⟨rfl, rfl, rfl⟩ := heq
    obtain ⟨hsp, hall, hlt⟩ := (findHeaderGoNB_spec (scannedRows data snr)).2 r' s' e' hnb
    have hrlen : r' < (scannedRows data snr).length := by
      by_contra hc
      rw [List.getD_eq_default _ _ (by omega)] at hsp
      rw [longest_span_empty_nil] at hsp
      cases hsp
    obtain ⟨hmax, hlongest, hfirst⟩ := longest_span_props _ s' e' hsp
    exact ⟨hrlen, hsp, hlt, hall, hmax, hlongest, hfirst⟩

/-- Witness for C5 on the repo's own fifth header test case
(`tests/test_utils.py`): the header is row 2 with span `(2, 4)` of width 3;
rows 0 and 1 have strictly narrower spans and the span is a maximal run. -/
theorem find_header_widest_earliest_witness :
    rowSpanWidth (scannedRows
      [[CellV.str "a", CellV.str "", CellV.str "", CellV.str "", CellV.str ""],
       [CellV.str "", CellV.str "b", CellV.str "", CellV.str "d", CellV.str ""],
       [CellV.str "b", CellV.str "", CellV.str "d", CellV.str "e", CellV.str "f"],
       [CellV.str "f", CellV.str "", CellV.str "x", CellV.str "", CellV.str "y"]] 15) 0
      < 4 - 2 + 1 ∧
    rowSpanWidth (scannedRows
      [[CellV.str "a", CellV.str "", CellV.str "", CellV.str "", CellV.str ""],
       [CellV.str "", CellV.str "b", CellV.str "", CellV.str "d", CellV.str ""],
       [CellV.str "b", CellV.str "", CellV.str "d", CellV.str "e", CellV.str "f"],
       [CellV.str "f", CellV.str "", CellV.str "x", CellV.str "", CellV.str "y"]] 15) 1
      < 4 - 2 + 1 ∧
    IsMaxRun ((scannedRows
      [[CellV.str "a", CellV.str "", CellV.str "", CellV.str "", CellV.str ""],
       [CellV.str "", CellV.str "b", CellV.str "", CellV.str "d", CellV.str ""],
       [CellV.str "b", CellV.str "", CellV.str "d", CellV.str "e", CellV.str "f"],
       [CellV.str "f", CellV.str "", CellV.str "x", CellV.str "", CellV.str "y"]] 15).getD 2 [])
      2 4 := by
  have h := find_header_widest_earliest
    [[CellV.str "a", CellV.str "", CellV.str "", CellV.str "", CellV.str ""],
     [CellV.str "", CellV.str "b", CellV.str "", CellV.str "d", CellV.str ""],
     [CellV.str "b", CellV.str "", CellV.str "d", CellV.str "e", CellV.str "f"],
     [CellV.str "f", CellV.str "", CellV.str "x", CellV.str "", CellV.str "y"]] 15
    2 2 4 (by decide)
  exact ⟨h.2.2.1 0 (by omega), h.2.2.1 1 (by omega), h.2.2.2.2.1⟩

/-!
### C2 — the grouped rollup is written only on each group's last row
-/

lemma getCells_setColGo_self (name : String) (vals : List CellV) :
    ∀ cols : List Col, Table.getCells ⟨setColGo name vals cols⟩ name = vals := by
  intro cols
  induction cols with
  | nil =>
    unfold setColGo Table.getCells
    rw [List.find?_cons_of_pos _ (by simp)]
    rfl
  | cons c cs ih =>
    unfold setColGo
    by_cases hc : c.name = CellV.str name
    · rw [if_pos hc]
      unfold Table.getCells
      rw [List.find?_cons_of_pos _ (by simp)]
      rfl
    · rw [if_neg hc]
      unfold Table.getCells at ih ⊢
      rw [List.find?_cons_of_neg _ (by simpa using hc)]
      exact ih

lemma getCells_setCol_self (t : Table) (name : String) (vals : List CellV) :
    (t.setCol name vals).getCells name = vals :=
  getCells_setColGo_self name vals t.cols

lemma getCells_setColGo_other (name name' : String) (vals : List CellV)
    (hne : name' ≠ name) :
    ∀ cols : List Col,
      Table.getCells ⟨setColGo name vals cols⟩ name' = Table.getCells ⟨cols⟩ name' := by
  intro cols
  have hpne : (CellV.str name = CellV.str name') = False := by
    simp only [CellV.str.injEq, eq_iff_iff, iff_false]
    exact fun h => hne h.symm
  induction cols with
  | nil =>
    unfold setColGo Table.getCells
    rw [List.find?_cons_of_neg _ (by simp [hpne])]
  | cons c cs ih =>
    unfold setColGo
    by_cases hc : c.name = CellV.str name
    · rw [if_pos hc]
      unfold Table.getCells
      rw [List.find?_cons_of_neg _ (by simp [hpne])]
      rw [List.find?_cons_of_neg _ (by simp [hc, hpne])]
    · rw [if_neg hc]
      unfold Table.getCells at ih ⊢
      by_cases hc' : c.name = CellV.str name'
      · rw [List.find?_cons_of_pos _ (by simpa using hc'),
          List.find?_cons_of_pos _ (by simpa using hc')]
      · rw [List.find?_cons_of_neg _ (by simpa using hc'),
          List.find?_cons_of_neg _ (by simpa using hc')]
        exact ih

lemma getCells_setCol_other (t : Table) (name name' : String) (vals : List CellV)
    (hne : name' ≠ name) :
    (t.setCol name vals).getCells name' = t.getCells name' :=
  getCells_setColGo_other name name' vals hne t.cols

lemma find?_eq_some_of_any (p : Col → Bool) :
    ∀ cols : List Col, cols.any p = true →
      ∃ c, cols.find? p = some c ∧ c ∈ cols ∧ p c = true := by
  intro cols
  induction cols with
  | nil => intro h; cases h
  | cons c cs ih =>
    intro h
    by_cases hc : p c = true
    · exact ⟨c, by rw [List.find?_cons_of_pos _ hc], List.mem_cons_self c cs, hc⟩
    · have h' : cs.any p = true := by
        rcases List.any_eq_true.mp h with ⟨x, hx, hpx⟩
        rcases List.mem_cons.mp hx with rfl | hx'
        · exact absurd hpx hc
        · exact List.any_eq_true.mpr ⟨x, hx', hpx⟩
      obtain ⟨c', h1, h2, h3⟩ := ih h'
      exact ⟨c', by rw [List.find?_cons_of_neg _ (by simpa using hc)]; exact h1,
        List.mem_cons_of_mem c h2, h3⟩

lemma getCells_length_of_hasCol (t : Table) (name : String)
    (hrect : ∀ c ∈ t.cols, c.cells.length = t.nrows)
    (hhas : t.hasCol name = true) :
    (t.getCells name).length = t.nrows := by
  obtain ⟨c, h1, h2, _⟩ := find?_eq_some_of_any _ t.cols hhas
  unfold Table.getCells
  rw [h1]
  exact hrect c h2

lemma getD_range_map {β : Type} (f : ℕ → β) (n i : ℕ) (d : β) (hi : i < n) :
    ((List.range n).map f).getD i d = f i := by
  rw [List.getD_eq_getElem _ _ (by simpa using hi)]
  simp

lemma getLastD_mem_of_ne_nil (l : List ℕ) (d : ℕ) (h : l ≠ []) :
    l.getLastD d ∈ l := by
  rw [List.getLastD_eq_getLast?, List.getLast?_eq_getLast l h]
  exact List.getLast_mem h

lemma pairwise_lt_le_getLastD :
    ∀ (l : List ℕ) (d : ℕ), l.Pairwise (· < ·) → ∀ x ∈ l, x ≤ l.getLastD d := by
  intro l
  induction l with
  | nil => intro d _ x hx; cases hx
  | cons a rest ih =>
    intro d hp x hx
    rw [List.getLastD_cons]
    rcases List.mem_cons.mp hx with rfl | hx'
    · cases hrest : rest with
      | nil => simp [List.getLastD]
      | cons b rest' =>
        have hmem : rest.getLastD x ∈ rest := by
          rw [hrest]
          exact getLastD_mem_of_ne_nil _ x (by simp)
        have := (List.pairwise_cons.mp hp).1 _ hmem
        rw [hrest] at this
        omega
    · exact ih a (List.pairwise_cons.mp hp).2 x hx'

/-- C2: on a table where `add_computed_fields` activates, for every
non-missing grouping-key value, exactly the last row (in original row
order) of the group of rows carrying that key holds the rollup value — the
`"; "`-join of the group's combined labels in row order — and every other
row of the group has the rollup column missing.  (The table is assumed
rectangular with unique column labels and string-valued label columns,
the only case in which the pandas code runs without raising.) -/
theorem add_computed_fields_rollup_last_of_group (t : Table) (v : CellV)
    (hact : (t.hasCol colNameUNRZ && t.hasCol colNameDoz && t.hasCol colNameMNN) = true)
    (hrect : ∀ c ∈ t.cols, c.cells.length = t.nrows)
    (_hnodup : (t.cols.map (fun c => c.name)).Nodup)
    (_hstrM : ∀ c ∈ t.getCells colNameMNN,
      (match c with | CellV.str _ => true | _ => false) = true)
    (_hstrD : ∀ c ∈ t.getCells colNameDoz,
      (match c with | CellV.str _ => true | _ => false) = true)
    (hv : v ≠ CellV.na)
    (hG : (List.range t.nrows).filter
      (fun i => decide ((t.getCells colNameUNRZ).getD i CellV.na = v)) ≠ []) :
    ((add_computed_fields t).getCells colNameRollup).getD
        (((List.range t.nrows).filter
          (fun i => decide ((t.getCells colNameUNRZ).getD i CellV.na = v))).getLastD 0)
        CellV.na =
      CellV.str (String.intercalate "; "
        (((List.range t.nrows).filter
          (fun i => decide ((t.getCells colNameUNRZ).getD i CellV.na = v))).map
          (fun j => cellStr
            (((add_computed_fields t).getCells colNameCombined).getD j CellV.na)))) ∧
    (∀ i ∈ (List.range t.nrows).filter
        (fun i => decide ((t.getCells colNameUNRZ).getD i CellV.na = v)),
      i ≠ ((List.range t.nrows).filter
        (fun i => decide ((t.getCells colNameUNRZ).getD i CellV.na = v))).getLastD 0 →
      ((add_computed_fields t).getCells colNameRollup).getD i CellV.na = CellV.na) := by
  obtain ⟨hUD, hM⟩ := Bool.and_eq_true_iff.mp hact
  obtain ⟨hU, hD⟩ := Bool.and_eq_true_iff.mp hUD
  have hout : add_computed_fields t =
      (t.setCol colNameCombined (combColumn t)).setCol colNameRollup (rollColumn t) := by
    unfold add_computed_fields
    rw [if_pos hact]
  have hkeys : keysColumn t = t.getCells colNameUNRZ :=
    getCells_setCol_other t colNameCombined colNameUNRZ (combColumn t) (by decide)
  have hroll : (add_computed_fields t).getCells colNameRollup = rollColumn t := by
    rw [hout]; exact getCells_setCol_self _ _ _
  have hcomb : (add_computed_fields t).getCells colNameCombined = combColumn t := by
    rw [hout, getCells_setCol_other _ _ _ _ (by decide)]
    exact getCells_setCol_self _ _ _
  have hklen : (t.getCells colNameUNRZ).length = t.nrows :=
    getCells_length_of_hasCol t colNameUNRZ hrect hU
  set K := t.getCells colNameUNRZ with hKdef
  set G := (List.range t.nrows).filter (fun i => decide (K.getD i CellV.na = v))
    with hGdef
  have hGmem : ∀ i, i ∈ G ↔ i < t.nrows ∧ K.getD i CellV.na = v := by
    intro i
    rw [hGdef]
    simp [List.mem_filter, List.mem_range]
  have hLmem : G.getLastD 0 ∈ G := getLastD_mem_of_ne_nil G 0 hG
  obtain ⟨hLlt, hLv⟩ := (hGmem _).mp hLmem
  have hsorted : G.Pairwise (· < ·) := by
    rw [hGdef]
    exact List.Pairwise.sublist (List.filter_sublist _) (List.pairwise_lt_range t.nrows)
  have hmaxG : ∀ i ∈ G, i ≤ G.getLastD 0 :=
    fun i hi => pairwise_lt_le_getLastD G 0 hsorted i hi
  have hlastL : isLastOfGroup K (G.getLastD 0) = true := by
    unfold isLastOfGroup
    apply Bool.and_eq_true_iff.mpr
    refine ⟨by rw [hLv]; simpa using hv, ?_⟩
    apply List.all_eq_true.mpr
    intro j hj
    rw [List.mem_range] at hj
    by_cases hle : j ≤ G.getLastD 0
    · exact Bool.or_eq_true_iff.mpr (Or.inl (decide_eq_true hle))
    · have hjG : j ∉ G := fun hmem => hle (hmaxG j hmem)
      have hjv : ¬ (K.getD j CellV.na = v) := by
        intro hkv
        exact hjG ((hGmem j).mpr ⟨by omega, hkv⟩)
      exact Bool.or_eq_true_iff.mpr (Or.inr (decide_eq_true (by rw [hLv]; exact hjv)))
  constructor
  · rw [hroll]
    unfold rollColumn
    rw [getD_range_map _ _ _ _ hLlt, hkeys, if_pos hlastL]
    unfold rollAllColumn
    rw [getD_range_map _ _ _ _ hLlt]
    simp only [hkeys, hLv, if_neg hv]
    rw [hcomb]
    unfold groupJoin
    rw [hklen]
  · intro i hi hne
    obtain ⟨hilt, hiv⟩ := (hGmem i).mp hi
    have hiL : i < G.getLastD 0 := lt_of_le_of_ne (hmaxG i hi) hne
    have hfalse : isLastOfGroup K i = false := by
      rw [Bool.eq_false_iff]
      intro habs
      obtain ⟨h1, h2⟩ := Bool.and_eq_true_iff.mp habs
      have hLrange : G.getLastD 0 ∈ List.range K.length := by
        rw [List.mem_range]; omega
      have hall := List.all_eq_true.mp h2 _ hLrange
      rw [hiv, hLv] at hall
      rcases Bool.or_eq_true_iff.mp hall with hcase | hcase
      · exact absurd (of_decide_eq_true hcase) (by omega)
      · exact (of_decide_eq_true hcase) rfl
    rw [hroll]
    unfold rollColumn
    rw [getD_range_map _ _ _ _ hilt, hkeys, if_neg (by simp [hfalse])]

/-- Witness for C2 at the spec's end-to-end scenario D: three rows share
group key `K1` with combined labels `p1, p2` / `q1, q2` / `r1, r2`; the
rollup column is `"p1, p2; q1, q2; r1, r2"` on the group's last row (row 2)
and missing on row 0. -/
theorem add_computed_fields_rollup_last_of_group_witness :
    ((add_computed_fields
      ⟨[⟨CellV.str "МНН", Dtype.object,
          [CellV.str "p1", CellV.str "q1", CellV.str "r1", CellV.str "w1"]⟩,
        ⟨CellV.str "Дозировка", Dtype.object,
          [CellV.str "p2", CellV.str "q2", CellV.str "r2", CellV.str "w2"]⟩,
        ⟨CellV.str "УНРЗ", Dtype.object,
          [CellV.str "K1", CellV.str "K1", CellV.str "K1", CellV.str "K2"]⟩]⟩).getCells
      colNameRollup).getD 2 CellV.na = CellV.str "p1, p2; q1, q2; r1, r2" ∧
    ((add_computed_fields
      ⟨[⟨CellV.str "МНН", Dtype.object,
          [CellV.str "p1", CellV.str "q1", CellV.str "r1", CellV.str "w1"]⟩,
        ⟨CellV.str "Дозировка", Dtype.object,
          [CellV.str "p2", CellV.str "q2", CellV.str "r2", CellV.str "w2"]⟩,
        ⟨CellV.str "УНРЗ", Dtype.object,
          [CellV.str "K1", CellV.str "K1", CellV.str "K1", CellV.str "K2"]⟩]⟩).getCells
      colNameRollup).getD 0 CellV.na = CellV.na := by
  have h := add_computed_fields_rollup_last_of_group
    ⟨[⟨CellV.str "МНН", Dtype.object,
        [CellV.str "p1", CellV.str "q1", CellV.str "r1", CellV.str "w1"]⟩,
      ⟨CellV.str "Дозировка", Dtype.object,
        [CellV.str "p2", CellV.str "q2", CellV.str "r2", CellV.str "w2"]⟩,
      ⟨CellV.str "УНРЗ", Dtype.object,
        [CellV.str "K1", CellV.str "K1", CellV.str "K1", CellV.str "K2"]⟩]⟩
    (CellV.str "K1") (by decide) (by decide) (by decide) (by decide) (by decide)
    (by decide) (by decide)
  constructor
  · have h1 := h.1
    convert h1 using 3
  · exact h.2 0 (by decide) (by decide)
